import Mathlib

/-!
Shallow embedding of the core of `src/main.js` (Mega da Virada results
checker): the game loader (`fetchGames`), the selection toggle
(`handleGridClick`), the hit/filter/sort/tally pipeline
(`renderGamesTable`), and the celebration gating (`updateWinnerUI`).

Modelling conventions:
* A JavaScript number produced by `parseInt(num, 10)` is `Option Int`:
  `some n` for a real integer, `none` for `NaN` (non-numeric or missing
  input).  `NaN` is never a member of the drawn-number `Set`, since that
  set only ever receives the grid values 1..60.
* The JS `Set` of drawn numbers is a `Finset Int` (`has`/`delete`/`add`/
  `size` become membership, `erase`, `insert`, `card`).
* `Array.prototype.sort` is stable per ECMAScript 2019, and a stable
  comparison sort's output is unique for a total preorder key, so the
  sort at main.js:150 is modelled by a stable insertion sort on the
  descending hit-count key.
* A raw `games.json` value is either a flat array of scalars, an array
  whose first element is an array (the multi-bet shape tested by
  `Array.isArray(bets[0])` at main.js:74), or a non-array (skipped).
-/

namespace MegaVirada

/-- A scalar appearing in a raw bet: either something `parseInt` can read
as an integer, or a non-numeric / missing value (which `parseInt` turns
into `NaN`). -/
inductive RawNum where
  | valid (n : Int)
  | invalid
deriving DecidableEq

/-- A JS number after `parseInt`: `none` is `NaN`. -/
abbrev JSNum := Option Int

/-- `parseInt(num, 10)` from main.js:80/88. -/
def parseIntJS : RawNum → JSNum
  | .valid n => some n
  | .invalid => none

/-- The value of one entry of `games.json`, as discriminated at
main.js:74/84: `nested b bs` is an array `[b, ...bs]` whose first element
is itself an array (multi-bet), `flat l` is an array whose first element
is not an array (single bet, possibly empty), `other` is a non-array
value (no branch taken). -/
inductive RawValue where
  | flat (nums : List RawNum)
  | nested (b : List RawNum) (bs : List (List RawNum))
  | other
deriving DecidableEq

/-- A processed game object as pushed at main.js:77 and main.js:85
(the cosmetic `sanitizedId` field is omitted). -/
structure Game where
  id : String
  numbers : List JSNum
  source : String
deriving DecidableEq

/-- The `bets.forEach((betNumbers, index) => ...)` loop of main.js:75-83,
with `k` the 1-based index of the first remaining bet. -/
def mkMulti (id : String) (k : Nat) : List (List RawNum) → List Game
  | [] => []
  | bet :: rest =>
    { id := id ++ "-" ++ toString k
      numbers := bet.map parseIntJS
      source := id } :: mkMulti id (k + 1) rest

/-- Processing of a single non-`_comment` entry (main.js:70-91). -/
def processEntry (id : String) : RawValue → List Game
  | .nested b bs => mkMulti id 1 (b :: bs)
  | .flat l => [{ id := id, numbers := l.map parseIntJS, source := id }]
  | .other => []

/-- The `for (const id in gamesData)` loop of `fetchGames`
(main.js:67-92), over the entries in object-insertion order.  Note the
loop performs no validation and has no error output: malformed scalars
flow through `parseIntJS` into the produced games. -/
def fetchGames : List (String × RawValue) → List Game
  | [] => []
  | (id, v) :: rest =>
    (if id = "_comment" then [] else processEntry id v) ++ fetchGames rest

/-- The selection toggle of `handleGridClick` (main.js:273-279):
remove a present number, add an absent one only while fewer than 6 are
selected, otherwise do nothing. -/
def toggle (s : Finset Int) (n : Int) : Finset Int :=
  if n ∈ s then s.erase n
  else if s.card < 6 then insert n s
  else s

/-- `drawnNumbers.has(num)` applied to a parsed game number
(main.js:142); `NaN` is never in the drawn set. -/
def numIsDrawn (drawn : Finset Int) : JSNum → Bool
  | some v => decide (v ∈ drawn)
  | none => false

/-- `game.numbers.filter(num => drawnNumbers.has(num))` (main.js:142). -/
def gameHits (drawn : Finset Int) (g : Game) : List JSNum :=
  g.numbers.filter (numIsDrawn drawn)

/-- `game.hitsCount = hits.length` (main.js:143). -/
def hitsCount (drawn : Finset Int) (g : Game) : Nat :=
  (gameHits drawn g).length

/-- One step of the stable descending insertion modelling the stable
`sort((a, b) => b.hitsCount - a.hitsCount)` of main.js:150: `g` (which
originally precedes every element of the list) goes in front of the
first element whose hit count does not exceed its own. -/
def insertByHits (drawn : Finset Int) (g : Game) : List Game → List Game
  | [] => [g]
  | b :: t =>
    if hitsCount drawn b ≤ hitsCount drawn g then g :: b :: t
    else b :: insertByHits drawn g t

/-- Stable sort by descending hit count (main.js:150). -/
def sortByHits (drawn : Finset Int) : List Game → List Game
  | [] => []
  | g :: t => insertByHits drawn g (sortByHits drawn t)

/-- The list the table loop iterates over (main.js:135, 148-151): all
games in load order, or — when the filter switch is on — only the games
with a positive hit count, sorted by descending hit count. -/
def renderedGames (filterOn : Bool) (drawn : Finset Int) (games : List Game) :
    List Game :=
  if filterOn then sortByHits drawn (games.filter (fun g => 0 < hitsCount drawn g))
  else games

/-- The mutable tally of main.js:136-138: `prizeCounts`,
`winningGameIds` and `bestPrizeThisCheck`. -/
structure Tally where
  count4 : Nat
  count5 : Nat
  count6 : Nat
  ids4 : List String
  ids5 : List String
  ids6 : List String
  best : Nat
deriving DecidableEq

def initTally : Tally := ⟨0, 0, 0, [], [], [], 0⟩

/-- The tally update of main.js:159-163 for one rendered game.  For a
game with more than 6 numbers the JS code would throw
(`winningGameIds[7]` is `undefined`); the model is only used on games
with at most 6 numbers, where the hit count is at most 6. -/
def tallyGame (drawn : Finset Int) (t : Tally) (g : Game) : Tally :=
  let n := hitsCount drawn g
  if 4 ≤ n then
    let t1 :=
      if n = 4 then { t with count4 := t.count4 + 1, ids4 := t.ids4 ++ [g.id] }
      else if n = 5 then { t with count5 := t.count5 + 1, ids5 := t.ids5 ++ [g.id] }
      else { t with count6 := t.count6 + 1, ids6 := t.ids6 ++ [g.id] }
    if t1.best < n then { t1 with best := n } else t1
  else t

/-- The tally accumulated by the `gamesToRender.forEach` loop
(main.js:155-184). -/
def tallyGames (drawn : Finset Int) (l : List Game) : Tally :=
  l.foldl (tallyGame drawn) initTally

/-- The whole evaluation `renderGamesTable` performs on one check
(main.js:134-189): the tally is computed over the rendered list, so it
runs after filtering and sorting exactly when the filter is active. -/
def checkGames (filterOn : Bool) (drawn : Finset Int) (games : List Game) :
    Tally :=
  tallyGames drawn (renderedGames filterOn drawn games)

/-- Result of one `updateWinnerUI` call: the new `lastBestPrizeLevel`
and whether `triggerCelebration` fired. -/
structure WinnerStep where
  newLevel : Nat
  fired : Bool
deriving DecidableEq

/-- The state transition of `updateWinnerUI` (main.js:209-221): below
tier 4 the stored level resets to 0 and nothing fires; otherwise the
celebration fires exactly on a strict increase over the stored level,
and the stored level is then set to the current best (unconditionally,
main.js:221). -/
def updateWinner (lastBest best : Nat) : WinnerStep :=
  if best < 4 then ⟨0, false⟩
  else if best > lastBest then ⟨best, true⟩
  else ⟨best, false⟩

/-- Runs a sequence of checks (given by their best-tier values) through
`updateWinner`, starting from stored level `lastBest`, returning the
fire flag of each check in order. -/
def runChecks (lastBest : Nat) : List Nat → List Bool
  | [] => []
  | b :: rest =>
    let u := updateWinner lastBest b
    u.fired :: runChecks u.newLevel rest

/-- The specification-level description of the tally (§4.3 of the spec),
used to compare the two display modes: per tier, the games with exactly
that hit count in list order; the best tier is the highest nonempty
bucket.  Faithful to `tallyGames` only for games whose hit count is at
most 6. -/
def bucket (drawn : Finset Int) (k : Nat) (l : List Game) : List Game :=
  l.filter (fun g => hitsCount drawn g = k)

def tallySpec (drawn : Finset Int) (l : List Game) : Tally :=
  { count4 := (bucket drawn 4 l).length
    count5 := (bucket drawn 5 l).length
    count6 := (bucket drawn 6 l).length
    ids4 := (bucket drawn 4 l).map Game.id
    ids5 := (bucket drawn 5 l).map Game.id
    ids6 := (bucket drawn 6 l).map Game.id
    best :=
      if bucket drawn 6 l ≠ [] then 6
      else if bucket drawn 5 l ≠ [] then 5
      else if bucket drawn 4 l ≠ [] then 4
      else 0 }

/-- Concatenation of two tallies: counting/collecting over `l₁ ++ l₂`
splits into the two parts. -/
def tallyConcat (t s : Tally) : Tally :=
  { count4 := t.count4 + s.count4
    count5 := t.count5 + s.count5
    count6 := t.count6 + s.count6
    ids4 := t.ids4 ++ s.ids4
    ids5 := t.ids5 ++ s.ids5
    ids6 := t.ids6 ++ s.ids6
    best := max t.best s.best }

/-- A drawn selection and a game list exercising the filtered display
mode: hit counts are 6, 4, 5, 4, 0 in load order, so sorting by
descending hit count reorders the list while each prize tier's bucket
keeps its load order. -/
def egDrawn : Finset Int := {1, 2, 3, 4, 5, 6}

def egGames : List Game :=
  [⟨"A", [some 1, some 2, some 3, some 4, some 5, some 6], "A"⟩,
   ⟨"B", [some 1, some 2, some 3, some 4, some 10, some 11], "B"⟩,
   ⟨"C", [some 1, some 2, some 3, some 4, some 5, some 10], "C"⟩,
   ⟨"D", [some 2, some 3, some 4, some 5, some 12, some 13], "D"⟩,
   ⟨"E", [some 10, some 11, some 12, some 13, some 14, some 15], "E"⟩]

/-- C3 helper fact is proved directly on `updateWinner`; no extra
definitions are needed beyond the transition function itself. -/
theorem updateWinner_fired_iff (lastBest best : Nat) :
    (updateWinner lastBest best).fired = true ↔ 4 ≤ best ∧ lastBest < best := by
  unfold updateWinner
  split_ifs <;> simp <;> omega

/-- C3: the celebration side effect fires exactly when the check's best
tier is at least 4 and strictly greater than the stored
`lastBestPrizeLevel`; on the best-tier sequence [0, 4, 4, 6, 5] it fires
exactly at the transitions to 4 and to 6. -/
theorem C3_celebration_gating :
    (∀ lastBest best : Nat,
      (updateWinner lastBest best).fired = true ↔ 4 ≤ best ∧ lastBest < best)
    ∧ runChecks 0 [0, 4, 4, 6, 5] = [false, true, false, true, false] :=
  ⟨updateWinner_fired_iff, by decide⟩

/-- C10: an evaluation whose best tier is below 4 resets the stored
`lastBestPrizeLevel` to 0, so the celebration re-fires for a tier that
was already announced earlier: the sequence [4, 0, 4] fires twice. -/
theorem C10_reset_below_four :
    (∀ lastBest best : Nat, best < 4 → (updateWinner lastBest best).newLevel = 0)
    ∧ runChecks 0 [4, 0, 4] = [true, false, true] := by
  refine ⟨?_, by decide⟩
  intro lastBest best h
  unfold updateWinner
  rw [if_pos h]

/-- Witness for C10 at the concrete stored level 6 and best tier 3. -/
theorem C10_reset_below_four_witness : (updateWinner 6 3).newLevel = 0 :=
  C10_reset_below_four.1 6 3 (by decide)

/-- C4 counterexample: with stored level 6 and a check whose best tier
is 5 (≥ 4 and not greater than 6), the stored level does not keep its
prior value 6 — main.js:221 overwrites it with 5. -/
theorem C4_counterexample :
    4 ≤ 5 ∧ 5 ≤ 6 ∧ (updateWinner 6 5).newLevel ≠ 6 := by decide

/-- C4 (amended): for an evaluation whose best tier is at least 4 but
not greater than the stored `lastBestPrizeLevel`, no celebration fires,
but the stored level is set to the current best tier — it keeps its
prior value only when the best tier equals it. -/
theorem C4_no_refire_level_tracks_current :
    ∀ lastBest best : Nat, 4 ≤ best → best ≤ lastBest →
      (updateWinner lastBest best).fired = false
      ∧ (updateWinner lastBest best).newLevel = best := by
  intro lastBest best h1 h2
  unfold updateWinner
  split_ifs with ha hb
  · exact absurd ha (by omega)
  · exact absurd hb (by omega)
  · exact ⟨rfl, rfl⟩

/-- Witness for the amended C4 at stored level 6, best tier 5. -/
theorem C4_no_refire_level_tracks_current_witness :
    (updateWinner 6 5).fired = false ∧ (updateWinner 6 5).newLevel = 5 :=
  C4_no_refire_level_tracks_current 6 5 (by decide) (by decide)

/-- C5: the loader applied to a ticket with a non-numeric bet value and
to a ticket with only 3 numbers silently produces games carrying `NaN`
(`none`) and short number lists; `fetchGames` has no error output at
all, so no loader-level error is reported. -/
theorem C5_loader_coerces_malformed :
    fetchGames
        [("T", RawValue.flat
            [.invalid, .valid 2, .valid 3, .valid 4, .valid 5, .valid 6]),
         ("S", RawValue.flat [.valid 1, .valid 2, .valid 3])] =
      [⟨"T", [none, some 2, some 3, some 4, some 5, some 6], "T"⟩,
       ⟨"S", [some 1, some 2, some 3], "S"⟩] := by decide

theorem toggle_card_le {s : Finset Int} (n : Int) (h : s.card ≤ 6) :
    (toggle s n).card ≤ 6 := by
  unfold toggle
  split_ifs with h1 h2
  · exact le_trans (Finset.card_erase_le) h
  · rw [Finset.card_insert_of_not_mem h1]; omega
  · exact h

theorem foldl_toggle_card_le (ops : List Int) :
    ∀ s : Finset Int, s.card ≤ 6 → (ops.foldl toggle s).card ≤ 6 := by
  induction ops with
  | nil => intro s h; simpa using h
  | cons n rest ih => intro s h; exact ih _ (toggle_card_le n h)

/-- C6: after any sequence of toggles starting from the empty selection
the size never exceeds 6, and toggling a 7th distinct number into a
6-element selection is a no-op. -/
theorem C6_capacity_invariant :
    (∀ ops : List Int, (ops.foldl toggle ∅).card ≤ 6)
    ∧ (∀ (s : Finset Int) (n : Int), s.card = 6 → n ∉ s → toggle s n = s) := by
  constructor
  · intro ops
    exact foldl_toggle_card_le ops ∅ (by simp)
  · intro s n h1 h2
    unfold toggle
    rw [if_neg h2, if_neg (by omega)]

/-- Witness for C6 at the full selection {1,…,6} and the 7th number 7. -/
theorem C6_capacity_invariant_witness :
    toggle {1, 2, 3, 4, 5, 6} 7 = ({1, 2, 3, 4, 5, 6} : Finset Int) :=
  C6_capacity_invariant.2 {1, 2, 3, 4, 5, 6} 7 (by decide) (by decide)

/-- C7: for a selection respecting the size invariant, toggling the same
number twice returns to the starting selection (in particular also when
the first toggle was a capacity no-op, the case the claim exempts), and
toggling an already-present number always removes it, regardless of
size. -/
theorem C7_toggle_round_trip :
    ∀ (s : Finset Int) (n : Int), 1 ≤ n → n ≤ 60 →
      (s.card ≤ 6 → ¬(n ∉ s ∧ s.card = 6) → toggle (toggle s n) n = s)
      ∧ (n ∈ s → toggle s n = s.erase n) := by
  intro s n _ _
  constructor
  · intro hcard hexc
    by_cases hmem : n ∈ s
    · have h1 : toggle s n = s.erase n := by unfold toggle; simp [hmem]
      rw [h1]
      have h2 : n ∉ s.erase n := Finset.not_mem_erase n s
      have h3 : (s.erase n).card < 6 := by
        have := Finset.card_erase_of_mem hmem
        have := Finset.card_pos.mpr ⟨n, hmem⟩
        omega
      unfold toggle
      simp [h2, h3, Finset.insert_erase hmem]
    · have h3 : s.card < 6 := by
        rcases Nat.lt_or_ge s.card 6 with h | h
        · exact h
        · exfalso; exact hexc ⟨hmem, by omega⟩
      have h1 : toggle s n = insert n s := by unfold toggle; simp [hmem, h3]
      rw [h1]
      unfold toggle
      simp [Finset.mem_insert_self, Finset.erase_insert hmem]
  · intro hmem
    unfold toggle; simp [hmem]

/-- Witness for C7 at the selection {1, 2} and the number 2. -/
theorem C7_toggle_round_trip_witness :
    toggle (toggle {1, 2} 2) 2 = ({1, 2} : Finset Int)
    ∧ toggle {1, 2} 2 = ({1, 2} : Finset Int).erase 2 :=
  ⟨(C7_toggle_round_trip {1, 2} 2 (by decide) (by decide)).1 (by decide) (by decide),
   (C7_toggle_round_trip {1, 2} 2 (by decide) (by decide)).2 (by decide)⟩

/-- C1: per game, the hit list is the subsequence of the game's numbers
(in the game's own order) that are members of the drawn selection, and
the hit count is its length; on the spec's scenario (games A and B,
drawn {1,…,6}) A scores 6, B scores 4, the tallies are
{4 ↦ 1, 5 ↦ 0, 6 ↦ 1} and the best tier is 6. -/
theorem C1_match_engine :
    (∀ (drawn : Finset Int) (g : Game),
      (gameHits drawn g).Sublist g.numbers
      ∧ (∀ n : JSNum,
          n ∈ gameHits drawn g ↔ n ∈ g.numbers ∧ numIsDrawn drawn n = true)
      ∧ hitsCount drawn g = (gameHits drawn g).length)
    ∧ (hitsCount {1, 2, 3, 4, 5, 6}
          ⟨"A", [some 1, some 2, some 3, some 4, some 5, some 6], "A"⟩ = 6
       ∧ hitsCount {1, 2, 3, 4, 5, 6}
          ⟨"B", [some 1, some 2, some 3, some 4, some 60, some 59], "B"⟩ = 4
       ∧ checkGames false {1, 2, 3, 4, 5, 6}
          [⟨"A", [some 1, some 2, some 3, some 4, some 5, some 6], "A"⟩,
           ⟨"B", [some 1, some 2, some 3, some 4, some 60, some 59], "B"⟩]
          = ⟨1, 0, 1, ["B"], [], ["A"], 6⟩) := by
  constructor
  · intro drawn g
    exact ⟨List.filter_sublist _, fun n => by simp [gameHits], rfl⟩
  · exact ⟨by decide, by decide, by decide⟩

theorem fetchGames_append (l1 l2 : List (String × RawValue)) :
    fetchGames (l1 ++ l2) = fetchGames l1 ++ fetchGames l2 := by
  induction l1 with
  | nil => rfl
  | cons p t ih =>
    obtain ⟨id, v⟩ := p
    simp [fetchGames, ih]

theorem mkMulti_length (id : String) (k : Nat) (l : List (List RawNum)) :
    (mkMulti id k l).length = l.length := by
  induction l generalizing k with
  | nil => rfl
  | cons b t ih => simp [mkMulti, ih]

theorem mkMulti_getElem (id : String) (l : List (List RawNum)) :
    ∀ (k i : Nat) (h : i < (mkMulti id k l).length) (h2 : i < l.length),
      (mkMulti id k l)[i] =
        Game.mk (id ++ "-" ++ toString (k + i)) (l[i].map parseIntJS) id := by
  induction l with
  | nil => intro k i h h2; simp at h2
  | cons b t ih =>
    intro k i h h2
    cases i with
    | zero => simp [mkMulti]
    | succ j =>
      have hj : j < (mkMulti id (k + 1) t).length := by
        simp only [mkMulti, List.length_cons] at h
        omega
      have hj2 : j < t.length := by simpa using h2
      have e : k + 1 + j = k + (j + 1) := by omega
      simp only [mkMulti, List.getElem_cons_succ]
      rw [ih (k + 1) j hj hj2, e]

/-- C2: the loader drops the `_comment` entry wherever it appears,
splices every other entry's games into the output in place, turns a
multi-bet entry into one game per inner bet (in order, with ids
`<ticketId>-<1-based index>`), and turns a flat entry into a single game
whose id is the ticket id. -/
theorem C2_loader_normalization :
    (∀ (pre post : List (String × RawValue)) (v : RawValue),
      fetchGames (pre ++ ("_comment", v) :: post) = fetchGames (pre ++ post))
    ∧ (∀ (pre post : List (String × RawValue)) (id : String) (v : RawValue),
        id ≠ "_comment" →
        fetchGames (pre ++ (id, v) :: post) =
          fetchGames pre ++ processEntry id v ++ fetchGames post)
    ∧ (∀ (id : String) (b : List RawNum) (bs : List (List RawNum)),
        (processEntry id (.nested b bs)).length = (b :: bs).length
        ∧ ∀ (i : Nat) (h : i < (processEntry id (.nested b bs)).length)
            (h2 : i < (b :: bs).length),
            (processEntry id (.nested b bs))[i] =
              Game.mk (id ++ "-" ++ toString (i + 1))
                ((b :: bs)[i].map parseIntJS) id)
    ∧ (∀ (id : String) (l : List RawNum),
        processEntry id (.flat l) = [Game.mk id (l.map parseIntJS) id]) := by
  refine ⟨?_, ?_, ?_, fun id l => rfl⟩
  · intro pre post v
    rw [fetchGames_append, fetchGames_append]
    simp [fetchGames]
  · intro pre post id v h
    rw [fetchGames_append]
    simp [fetchGames, h, List.append_assoc]
  · intro id b bs
    refine ⟨mkMulti_length id 1 (b :: bs), ?_⟩
    intro i h h2
    have h3 : i < (mkMulti id 1 (b :: bs)).length := h
    have e := mkMulti_getElem id (b :: bs) 1 i h3 h2
    rw [show (1 : Nat) + i = i + 1 from by omega] at e
    exact e

/-- Witness for C2: a `_comment` entry is dropped, a multi-bet entry of
two inner bets is spliced in place, and its first game is read off with
the hypotheses discharged at index 0. -/
theorem C2_loader_normalization_witness :
    (fetchGames
        ([("_comment", RawValue.other)] ++
          ("T", RawValue.nested [.valid 1] [[.valid 2]]) :: []) =
      fetchGames [("_comment", RawValue.other)] ++
        processEntry "T" (RawValue.nested [.valid 1] [[.valid 2]]) ++
        fetchGames [])
    ∧ (processEntry "T" (RawValue.nested [.valid 1] [[.valid 2]])).get
          ⟨0, by decide⟩ =
        Game.mk ("T" ++ "-" ++ toString (0 + 1))
          (([.valid 1] : List RawNum).map parseIntJS) "T" :=
  ⟨C2_loader_normalization.2.1 [("_comment", RawValue.other)] []
      "T" (RawValue.nested [.valid 1] [[.valid 2]]) (by decide),
   (C2_loader_normalization.2.2.1 "T" [.valid 1] [[.valid 2]]).2 0
      (by decide) (by decide)⟩

theorem insertByHits_perm (drawn : Finset Int) (g : Game) (l : List Game) :
    List.Perm (insertByHits drawn g l) (g :: l) := by
  induction l with
  | nil => exact List.Perm.refl _
  | cons b t ih =>
    unfold insertByHits
    split_ifs with h
    · exact List.Perm.refl _
    · exact (ih.cons b).trans (List.Perm.swap g b t)

theorem sortByHits_perm (drawn : Finset Int) (l : List Game) :
    List.Perm (sortByHits drawn l) l := by
  induction l with
  | nil => exact List.Perm.refl _
  | cons g t ih => exact (insertByHits_perm drawn g _).trans (ih.cons g)

theorem insertByHits_pairwise (drawn : Finset Int) (g : Game) {l : List Game}
    (hl : l.Pairwise (fun a b => hitsCount drawn b ≤ hitsCount drawn a)) :
    (insertByHits drawn g l).Pairwise
      (fun a b => hitsCount drawn b ≤ hitsCount drawn a) := by
  induction l with
  | nil => simp [insertByHits]
  | cons b t ih =>
    rw [List.pairwise_cons] at hl
    obtain ⟨hb, ht⟩ := hl
    unfold insertByHits
    split_ifs with h
    · refine List.Pairwise.cons ?_ (List.Pairwise.cons hb ht)
      intro x hx
      rcases List.mem_cons.mp hx with rfl | hx
      · exact h
      · exact le_trans (hb x hx) h
    · refine List.Pairwise.cons ?_ (ih ht)
      intro x hx
      have hx2 : x ∈ g :: t := (insertByHits_perm drawn g t).mem_iff.mp hx
      rcases List.mem_cons.mp hx2 with rfl | hx2
      · omega
      · exact hb x hx2

theorem sortByHits_pairwise (drawn : Finset Int) (l : List Game) :
    (sortByHits drawn l).Pairwise
      (fun a b => hitsCount drawn b ≤ hitsCount drawn a) := by
  induction l with
  | nil => simp [sortByHits]
  | cons g t ih => exact insertByHits_pairwise drawn g ih

theorem bucket_cons (drawn : Finset Int) (k : Nat) (g : Game) (l : List Game) :
    bucket drawn k (g :: l) =
      if hitsCount drawn g = k then g :: bucket drawn k l else bucket drawn k l := by
  simp only [bucket, List.filter_cons, decide_eq_true_eq]

/-- Stability of the hit-count sort: the games of any fixed hit count
appear in the sorted list exactly as they appear in the input. -/
theorem insertByHits_bucket (drawn : Finset Int) (g : Game) (l : List Game)
    (k : Nat) :
    bucket drawn k (insertByHits drawn g l) = bucket drawn k (g :: l) := by
  induction l with
  | nil => rfl
  | cons b t ih =>
    unfold insertByHits
    split_ifs with h
    · rfl
    · by_cases hg : hitsCount drawn g = k
      · have hb : ¬ hitsCount drawn b = k := by omega
        simp [bucket_cons, ih, hg, hb]
      · simp [bucket_cons, ih, hg]

theorem sortByHits_bucket (drawn : Finset Int) (l : List Game) (k : Nat) :
    bucket drawn k (sortByHits drawn l) = bucket drawn k l := by
  induction l with
  | nil => rfl
  | cons g t ih =>
    show bucket drawn k (insertByHits drawn g (sortByHits drawn t)) = _
    rw [insertByHits_bucket, bucket_cons, ih, bucket_cons]

/-- C8: with the hits-only filter active, the rendered list is a
permutation of the games with positive hit count, is ordered by
descending hit count, and every fixed hit count keeps its original load
order (stability). -/
theorem C8_filtered_rendering :
    ∀ (drawn : Finset Int) (games : List Game),
      (renderedGames true drawn games).Pairwise
        (fun a b => hitsCount drawn b ≤ hitsCount drawn a)
      ∧ List.Perm (renderedGames true drawn games)
          (games.filter (fun g => 0 < hitsCount drawn g))
      ∧ ∀ k : Nat,
          bucket drawn k (renderedGames true drawn games) =
            bucket drawn k (games.filter (fun g => 0 < hitsCount drawn g)) := by
  intro drawn games
  have hr : renderedGames true drawn games =
      sortByHits drawn (games.filter (fun g => 0 < hitsCount drawn g)) := rfl
  rw [hr]
  exact ⟨sortByHits_pairwise drawn _, sortByHits_perm drawn _,
    fun k => sortByHits_bucket drawn _ k⟩

/-- The update form of one tally step: each field of the result in
terms of the game's hit count. -/
theorem tallyGame_eq (drawn : Finset Int) (t : Tally) (g : Game) :
    tallyGame drawn t g =
      { count4 := t.count4 + if hitsCount drawn g = 4 then 1 else 0
        count5 := t.count5 + if hitsCount drawn g = 5 then 1 else 0
        count6 := t.count6 +
          if 4 ≤ hitsCount drawn g ∧ ¬hitsCount drawn g = 4
              ∧ ¬hitsCount drawn g = 5 then 1 else 0
        ids4 := t.ids4 ++ if hitsCount drawn g = 4 then [g.id] else []
        ids5 := t.ids5 ++ if hitsCount drawn g = 5 then [g.id] else []
        ids6 := t.ids6 ++
          if 4 ≤ hitsCount drawn g ∧ ¬hitsCount drawn g = 4
              ∧ ¬hitsCount drawn g = 5 then [g.id] else []
        best := if 4 ≤ hitsCount drawn g then max t.best (hitsCount drawn g)
                else t.best } := by
  unfold tallyGame
  split_ifs <;> simp_all
  all_goals split_ifs <;> simp_all <;> omega

/-- Accumulating the tally over a list splits into the accumulator and
the specification-level tally of the list, for games whose hit count is
at most 6 (main.js would throw on a larger hit count). -/
theorem foldl_tallyGame_eq (drawn : Finset Int) :
    ∀ l : List Game, (∀ g ∈ l, hitsCount drawn g ≤ 6) →
      ∀ t : Tally, l.foldl (tallyGame drawn) t = tallyConcat t (tallySpec drawn l) := by
  intro l
  induction l with
  | nil =>
    intro _ t
    cases t
    simp [tallyConcat, tallySpec, bucket]
  | cons g rest ih =>
    intro hle t
    have hg6 : hitsCount drawn g ≤ 6 := hle g (List.mem_cons_self g rest)
    have hrest : ∀ x ∈ rest, hitsCount drawn x ≤ 6 := fun x hx =>
      hle x (List.mem_cons_of_mem g hx)
    show List.foldl (tallyGame drawn) (tallyGame drawn t g) rest = _
    rw [ih hrest (tallyGame drawn t g), tallyGame_eq]
    by_cases e4 : hitsCount drawn g = 4
    · simp only [tallyConcat, tallySpec, bucket_cons, e4, if_pos, if_true,
        List.cons_ne_nil, ne_eq, not_true_eq_false, not_false_eq_true]
      simp [Tally.mk.injEq, List.append_assoc]
      split_ifs <;> omega
    · by_cases e5 : hitsCount drawn g = 5
      · simp only [tallyConcat, tallySpec, bucket_cons, e4, e5, if_pos, if_true,
          List.cons_ne_nil, ne_eq, not_true_eq_false, not_false_eq_true]
        simp [Tally.mk.injEq, List.append_assoc, e4]
        split_ifs <;> omega
      · by_cases e6 : hitsCount drawn g = 6
        · simp only [tallyConcat, tallySpec, bucket_cons, e4, e5, e6, if_pos,
            if_true, List.cons_ne_nil, ne_eq, not_true_eq_false,
            not_false_eq_true]
          simp [Tally.mk.injEq, List.append_assoc, e4, e5]
          split_ifs <;> omega
        · have hlow : hitsCount drawn g < 4 := by omega
          have h4 : ¬ 4 ≤ hitsCount drawn g := by omega
          have h6 : ¬ 6 ≤ hitsCount drawn g := by omega
          simp [tallyConcat, tallySpec, bucket_cons, e4, e5, e6, h4, h6]

theorem tallyGames_eq_spec (drawn : Finset Int) (l : List Game)
    (h : ∀ g ∈ l, hitsCount drawn g ≤ 6) :
    tallyGames drawn l = tallySpec drawn l := by
  rw [tallyGames, foldl_tallyGame_eq drawn l h initTally]
  cases hs : tallySpec drawn l
  simp [tallyConcat, initTally]

theorem hitsCount_le_numbers (drawn : Finset Int) (g : Game) :
    hitsCount drawn g ≤ g.numbers.length :=
  List.length_filter_le _ _

/-- Buckets of the positive-hits filtered list agree with those of the
full list for any positive tier. -/
theorem bucket_filter_pos (drawn : Finset Int) (k : Nat) (hk : 0 < k)
    (games : List Game) :
    bucket drawn k (games.filter (fun g => 0 < hitsCount drawn g)) =
      bucket drawn k games := by
  unfold bucket
  rw [List.filter_filter]
  apply List.filter_congr
  intro g _
  by_cases h : hitsCount drawn g = k
  · simp [h, hk]
  · simp [h]

/-- C9 counterexample: on a concrete game list whose filtered display
order genuinely differs from load order (hit counts 6, 4, 5, 4, 0), the
per-tier winning-id lists — indeed the whole tally — coincide between
the two display modes, contrary to the claimed difference. -/
theorem C9_counterexample :
    renderedGames true egDrawn egGames ≠ renderedGames false egDrawn egGames
    ∧ (checkGames true egDrawn egGames).ids4 = ["B", "D"]
    ∧ (checkGames false egDrawn egGames).ids4 = ["B", "D"]
    ∧ checkGames true egDrawn egGames = checkGames false egDrawn egGames := by
  decide

/-- C9 (amended): for every game list (of well-formed, at most 6-number
games) and drawn selection, the tally — prize counts, per-tier
winning-id lists and best tier — is identical whether or not the
hits-only filter is active: each tier's bucket is homogeneous in hit
count, so the stable sort keeps it in load order. -/
theorem C9_tally_mode_independent :
    ∀ (drawn : Finset Int) (games : List Game),
      (∀ g ∈ games, g.numbers.length ≤ 6) →
      checkGames true drawn games = checkGames false drawn games := by
  intro drawn games hlen
  have hhc : ∀ g ∈ games, hitsCount drawn g ≤ 6 := fun g hg =>
    le_trans (hitsCount_le_numbers drawn g) (hlen g hg)
  have hfil : ∀ g ∈ games.filter (fun g => 0 < hitsCount drawn g),
      hitsCount drawn g ≤ 6 := fun g hg => hhc g (List.mem_of_mem_filter hg)
  have hsort : ∀ g ∈ sortByHits drawn
      (games.filter (fun g => 0 < hitsCount drawn g)),
      hitsCount drawn g ≤ 6 := fun g hg =>
    hfil g ((sortByHits_perm drawn _).mem_iff.mp hg)
  have h1 : checkGames true drawn games =
      tallySpec drawn (sortByHits drawn
        (games.filter (fun g => 0 < hitsCount drawn g))) :=
    tallyGames_eq_spec drawn _ hsort
  have h2 : checkGames false drawn games = tallySpec drawn games :=
    tallyGames_eq_spec drawn games hhc
  rw [h1, h2]
  have b4 : bucket drawn 4 (sortByHits drawn
      (games.filter (fun g => 0 < hitsCount drawn g))) = bucket drawn 4 games := by
    rw [sortByHits_bucket, bucket_filter_pos drawn 4 (by omega)]
  have b5 : bucket drawn 5 (sortByHits drawn
      (games.filter (fun g => 0 < hitsCount drawn g))) = bucket drawn 5 games := by
    rw [sortByHits_bucket, bucket_filter_pos drawn 5 (by omega)]
  have b6 : bucket drawn 6 (sortByHits drawn
      (games.filter (fun g => 0 < hitsCount drawn g))) = bucket drawn 6 games := by
    rw [sortByHits_bucket, bucket_filter_pos drawn 6 (by omega)]
  simp only [tallySpec, b4, b5, b6]

/-- Witness for the amended C9 on the counterexample's game list. -/
theorem C9_tally_mode_independent_witness :
    checkGames true egDrawn egGames = checkGames false egDrawn egGames :=
  C9_tally_mode_independent egDrawn egGames (by decide)

end MegaVirada
